import Mathlib

set_option maxRecDepth 100000

/-!
# TrinityChain: shallow embedding of the triangle-UTXO engine

Shallow embedding of the TrinityChain core (geometry, transactions, UTXO
state, block chain, in-memory persistence) translated from the Rust source
under `src/`, together with theorems settling the frozen claims.

Modelling conventions:
* Machine integers (`u8`, `u32`, `u64`, `i64`) are `Nat`/`Int`; wrap-around
  is applied explicitly (`% 2^w`) exactly where the source can overflow in a
  claim-relevant way.
* The fixed-point coordinate type `Coord = I32F32` is its raw `i64` bit
  pattern, carried as an `Int`.  Addition/subtraction/comparison on `I32F32`
  are exactly addition/subtraction/comparison of bit patterns.
* SHA-256 (`sha2` crate) is an external library; it is modelled as an
  abstract parameter `H : HashFn` producing 32 well-formed bytes.  All
  universally quantified theorems hold for every `H`; concrete evaluations
  instantiate `H` with an executable stand-in.
* secp256k1 ECDSA verification (`secp256k1` crate) is likewise an abstract
  parameter `V : EcdsaVerify`; the deterministic length checks of
  `crypto::verify_signature` are embedded from the source.
* `HashMap` is modelled as a duplicate-free association list; `insert`
  replaces, `remove` deletes.  Iteration order only feeds commutative sums,
  so list order is immaterial.
* Error message strings are abbreviated to the static prefix of the
  source's `format!` template (the formatted arguments are omitted); no
  theorem depends on the omitted text.
-/

/-- Little-endian bytes of a `u64` value (`to_le_bytes`). -/
def u64le (n : Nat) : List Nat :=
  (List.range 8).map (fun i => n / 256 ^ i % 256)

/-- Little-endian bytes of a `u32` value (`to_le_bytes`). -/
def u32le (n : Nat) : List Nat :=
  (List.range 4).map (fun i => n / 256 ^ i % 256)

/-- Little-endian bytes of an `i64` value, two's complement (`to_le_bytes`). -/
def i64le (n : Int) : List Nat :=
  u64le (n % (2 ^ 64 : Nat)).toNat

/-- A well-formed 32-byte value: the type of SHA-256 digests, addresses are
kept as raw lists.  (`Sha256Hash = [u8; 32]` in `blockchain/core/chain.rs`.) -/
def Sha256Hash : Type :=
  { l : List Nat // l.length = 32 ∧ l.all (fun b => b < 256) = true }

instance : DecidableEq Sha256Hash := by
  unfold Sha256Hash; infer_instance

/-- Big-endian 32-byte expansion of a natural number (mod 2^256). -/
def natToBe32 (n : Nat) : Sha256Hash :=
  ⟨(List.range 32).map (fun i => n / 256 ^ (31 - i) % 256), by
    constructor
    · simp
    · simp only [List.all_eq_true, List.mem_map, List.mem_range]
      rintro b ⟨i, -, rfl⟩
      exact decide_eq_true (Nat.mod_lt _ (by norm_num))⟩

/-- Abstract model of the SHA-256 compression used throughout the source
(`sha2::Sha256`): a function from a byte stream to a 32-byte digest. -/
abbrev HashFn : Type :=
  List Nat → Sha256Hash

/-- Lexicographic `<=` on byte arrays: Rust's derived `Ord` for `[u8; 32]`,
used by `verify_pow` (`block_hash_int <= hash_target`). -/
def bytesLe : List Nat → List Nat → Bool
  | [], [] => true
  | [], _ :: _ => true
  | _ :: _, [] => false
  | a :: as, b :: bs => if a < b then true else if b < a then false else bytesLe as bs

/-- The value of a byte list read as a big-endian integer. -/
def beVal (l : List Nat) : Nat :=
  l.foldl (fun acc b => acc * 256 + b) 0

-- ---------------------------------------------------------------------------
-- Geometry (src/src/geometry.rs)
-- ---------------------------------------------------------------------------

/-- `Coord = I32F32`: a Q32.32 fixed-point number, represented by its raw
`i64` bit pattern (an `Int`).  Addition, subtraction and comparisons on
`I32F32` coincide with those of the bit patterns.  `Coord.ofInt n` is
`Coord::from_num(n)` for integers. -/
abbrev Coord : Type := Int

/-- `Coord::from_num` on an integer: shift into the Q32.32 bit pattern. -/
def Coord.ofInt (n : Int) : Coord := n * 2 ^ 32

/-- `GEOMETRIC_TOLERANCE = I32F32::from_bits(42950)` (≈ 1e-5). -/
def GEOMETRIC_TOLERANCE : Coord := (42950 : Int)

/-- Fixed-point multiplication: wide product arithmetically shifted right by
32 (the rounding direction is irrelevant to every theorem below; it is only
reached through `Triangle.area`). -/
def Coord.mul (a b : Coord) : Coord := Int.fdiv ((a : Int) * b) (2 ^ 32)

/-- Division of a fixed-point value by a plain integer (`I32F32 / i32`):
the bit pattern is divided with Rust `i64` semantics (truncation toward 0). -/
def Coord.divInt (a : Coord) (n : Int) : Coord := Int.tdiv a n

/-- `abs` on fixed-point values. -/
def Coord.abs (a : Coord) : Coord := if (a : Int) < 0 then -(a : Int) else (a : Int)

/-- `Coord::to_le_bytes`: the 8 little-endian bytes of the bit pattern. -/
def Coord.leBytes (a : Coord) : List Nat := i64le a

/-- `Address = [u8; 32]` (src/src/crypto.rs), kept as a raw byte list. -/
abbrev Address : Type := List Nat

/-- The all-zero address (`[0; 32]`). -/
def zeroAddress : Address := List.replicate 32 0

/-- `Point`: a 2D point with fixed-point coordinates. -/
structure Point where
  x : Coord
  y : Coord
deriving DecidableEq

/-- `Point::midpoint`: componentwise `(p + q) / 2`. -/
def Point.midpoint (p q : Point) : Point :=
  ⟨(p.x + q.x).divInt 2, (p.y + q.y).divInt 2⟩

/-- `Point::equals`: exact componentwise equality. -/
def Point.equals (p q : Point) : Bool :=
  decide (p.x = q.x) && decide (p.y = q.y)

/-- `Triangle`: the UTXO primitive. -/
structure Triangle where
  a : Point
  b : Point
  c : Point
  parent_hash : Option Sha256Hash
  owner : Address
  value : Option Coord
deriving DecidableEq

/-- `Triangle::new` (value left unset). -/
def Triangle.new (a b c : Point) (parent_hash : Option Sha256Hash)
    (owner : Address) : Triangle :=
  ⟨a, b, c, parent_hash, owner, none⟩

/-- `Triangle::new_with_value`. -/
def Triangle.new_with_value (a b c : Point) (parent_hash : Option Sha256Hash)
    (owner : Address) (value : Coord) : Triangle :=
  ⟨a, b, c, parent_hash, owner, some value⟩

/-- `Triangle::area`: shoelace formula, `|det| / 2`. -/
def Triangle.area (t : Triangle) : Coord :=
  ((t.a.x.mul (t.b.y - t.c.y) + t.b.x.mul (t.c.y - t.a.y)
      + t.c.x.mul (t.a.y - t.b.y)).abs).divInt 2

/-- `Triangle::effective_value`: the explicit `value` if set, else the area. -/
def Triangle.effective_value (t : Triangle) : Coord :=
  t.value.getD t.area

/-- `Triangle::change_owner`. -/
def Triangle.change_owner (t : Triangle) (new_owner : Address) : Triangle :=
  { t with owner := new_owner }

/-- `Triangle::with_effective_value`. -/
def Triangle.with_effective_value (t : Triangle) (v : Coord) : Triangle :=
  { t with value := some v }

/-- Comparison key used by `Triangle::hash`: `(x.to_bits(), y.to_bits())`
lexicographically, i.e. signed `i64` comparison of the raw bit patterns. -/
def Point.bitsLe (p q : Point) : Bool :=
  decide ((p.x : Int) < q.x) ||
    (decide (p.x = q.x) && decide ((p.y : Int) ≤ q.y))

/-- Ordered insertion for the vertex sort below. -/
def Point.insertSorted (p : Point) : List Point → List Point
  | [] => [p]
  | q :: r => if p.bitsLe q then p :: q :: r else q :: Point.insertSorted p r

/-- The three vertices sorted by raw bit pattern (the canonical order used by
`Triangle::hash`; `sort_by` on 3 elements). -/
def Triangle.sortedVertices (t : Triangle) : List Point :=
  Point.insertSorted t.a (Point.insertSorted t.b [t.c])

/-- The byte stream fed to SHA-256 by `Triangle::hash`: sorted vertex
coordinates, then owner, then the value bytes when a value is set. -/
def Triangle.hashBytes (t : Triangle) : List Nat :=
  (t.sortedVertices.flatMap fun p => p.x.leBytes ++ p.y.leBytes)
    ++ t.owner
    ++ (match t.value with
        | some v => v.leBytes
        | none => [])

/-- `Triangle::hash`: canonical triangle hash. -/
def Triangle.hash (H : HashFn) (t : Triangle) : Sha256Hash :=
  H t.hashBytes

/-- `Triangle::subdivide`: the three corner triangles of the Sierpiński
subdivision, each owned by the parent's owner and carrying a third of the
parent's effective value. -/
def Triangle.subdivide (H : HashFn) (t : Triangle) : List Triangle :=
  let mid_ab := t.a.midpoint t.b
  let mid_bc := t.b.midpoint t.c
  let mid_ca := t.c.midpoint t.a
  let parent_hash := some (t.hash H)
  let child_value := t.effective_value.divInt 3
  [Triangle.new_with_value t.a mid_ab mid_ca parent_hash t.owner child_value,
   Triangle.new_with_value mid_ab t.b mid_bc parent_hash t.owner child_value,
   Triangle.new_with_value mid_ca mid_bc t.c parent_hash t.owner child_value]

-- ---------------------------------------------------------------------------
-- Errors (src/src/error.rs)
-- ---------------------------------------------------------------------------

/-- `ChainError` (src/src/error.rs).  String payloads carry the static prefix
of the source's `format!` template; the formatted arguments are omitted, and
no theorem depends on the omitted text. -/
inductive ChainError where
  | InvalidBlockLinkage
  | NetworkError (msg : String)
  | DatabaseError (msg : String)
  | InvalidProofOfWork
  | InvalidMerkleRoot
  | InvalidTransaction (msg : String)
  | TriangleNotFound (msg : String)
  | CryptoError (msg : String)
  | WalletError (msg : String)
  | OrphanBlock
  | ApiError (msg : String)
  | AuthenticationError (msg : String)
  | MempoolFull
  | IoError (msg : String)
  | BincodeError (msg : String)
  | ForkNotFound
  | InvalidBlock (msg : String)
  | DoubleSpendDetected (msg : String)
  | BlockAlreadyExists
deriving DecidableEq

/-- Does the error use the `InvalidTransaction` variant? -/
def ChainError.isInvalidTransaction : ChainError → Bool
  | .InvalidTransaction _ => true
  | _ => false

/-- Does the error use the `DoubleSpendDetected` variant? -/
def ChainError.isDoubleSpendDetected : ChainError → Bool
  | .DoubleSpendDetected _ => true
  | _ => false

deriving instance DecidableEq for Except

/-- Is the computation's result `Ok`? -/
def exceptOk {α : Type} : Except ChainError α → Bool
  | .ok _ => true
  | .error _ => false

/-- The error of a failed computation, if any. -/
def exceptErr {α : Type} : Except ChainError α → Option ChainError
  | .ok _ => none
  | .error e => some e

-- ---------------------------------------------------------------------------
-- Transactions (src/src/transaction/types.rs)
-- ---------------------------------------------------------------------------

/-- `MAX_TRANSACTION_SIZE`: 100 KB bincode-serialized bound. -/
def MAX_TRANSACTION_SIZE : Nat := 100000

/-- `TransferTx`: moves ownership of a triangle. -/
structure TransferTx where
  input_hash : Sha256Hash
  new_owner : Address
  sender : Address
  amount : Coord
  fee_area : Coord
  nonce : Nat
  signature : Option (List Nat)
  public_key : Option (List Nat)
  memo : Option String
deriving DecidableEq

/-- `SubdivisionTx`: splits one parent triangle into three children. -/
structure SubdivisionTx where
  parent_hash : Sha256Hash
  children : List Triangle
  owner_address : Address
  fee_area : Coord
  nonce : Nat
  signature : Option (List Nat)
  public_key : Option (List Nat)
deriving DecidableEq

/-- `CoinbaseTx`: miner reward. -/
structure CoinbaseTx where
  reward_area : Coord
  beneficiary_address : Address
  nonce : Nat
deriving DecidableEq

/-- `CoinbaseTx::MAX_REWARD_AREA = Coord::from_bits(1000i64 << 32)`. -/
def CoinbaseTx.MAX_REWARD_AREA : Coord := (1000 : Int) * 2 ^ 32

/-- `Transaction`: the tagged union of the three variants. -/
inductive Transaction where
  | Transfer (tx : TransferTx)
  | Subdivision (tx : SubdivisionTx)
  | Coinbase (tx : CoinbaseTx)
deriving DecidableEq

/-- ASCII bytes of the `"coinbase"` domain tag. -/
def coinbaseTag : List Nat := [99, 111, 105, 110, 98, 97, 115, 101]

/-- ASCII bytes of the `"transfer"` domain tag. -/
def transferTag : List Nat := [116, 114, 97, 110, 115, 102, 101, 114]

/-- ASCII bytes of the `"TRANSFER:"` signable-message tag. -/
def transferSigTag : List Nat := [84, 82, 65, 78, 83, 70, 69, 82, 58]

/-- The byte stream fed to SHA-256 by `Transaction::hash` (exact field
order of the source `match`). -/
def Transaction.hashBytes (H : HashFn) : Transaction → List Nat
  | .Subdivision tx =>
      tx.parent_hash.val
        ++ tx.children.flatMap (fun c => (c.hash H).val)
        ++ tx.owner_address
        ++ tx.fee_area.leBytes
        ++ u64le tx.nonce
  | .Coinbase tx =>
      coinbaseTag
        ++ tx.reward_area.leBytes
        ++ tx.beneficiary_address
        ++ u64le tx.nonce
  | .Transfer tx =>
      transferTag
        ++ tx.input_hash.val
        ++ tx.new_owner
        ++ tx.sender
        ++ tx.amount.leBytes
        ++ tx.fee_area.leBytes
        ++ u64le tx.nonce

/-- `Transaction::hash`. -/
def Transaction.hash (H : HashFn) (t : Transaction) : Sha256Hash :=
  H (t.hashBytes H)

/-- `Transaction::fee_area`. -/
def Transaction.fee_area : Transaction → Coord
  | .Subdivision tx => tx.fee_area
  | .Transfer tx => tx.fee_area
  | .Coinbase _ => 0

/-- `TransferTx::signable_message`. -/
def TransferTx.signable_message (tx : TransferTx) : List Nat :=
  transferSigTag
    ++ tx.input_hash.val
    ++ tx.new_owner
    ++ tx.sender
    ++ tx.amount.leBytes
    ++ tx.fee_area.leBytes
    ++ u64le tx.nonce

/-- `SubdivisionTx::signable_message`. -/
def SubdivisionTx.signable_message (H : HashFn) (tx : SubdivisionTx) : List Nat :=
  tx.parent_hash.val
    ++ tx.children.flatMap (fun c => (c.hash H).val)
    ++ tx.owner_address
    ++ tx.fee_area.leBytes
    ++ u64le tx.nonce

/-- bincode (v1 legacy, fixed-int encoding) size of an `Option` of raw bytes. -/
def optBytesSize : Option (List Nat) → Nat
  | none => 1
  | some v => 1 + 8 + v.length

/-- bincode size of a serialized `Triangle` (3 points of 2×8 bytes,
`Option<[u8;32]>`, 32-byte owner, `Option<Coord>`). -/
def Triangle.serializedSize (t : Triangle) : Nat :=
  48 + (match t.parent_hash with | some _ => 33 | none => 1) + 32
    + (match t.value with | some _ => 9 | none => 1)

/-- bincode-serialized byte count of a `Transaction` (enum tag `u32`, then
the variant's fields with fixed-int encoding). -/
def Transaction.serializedSize : Transaction → Nat
  | .Transfer tx =>
      4 + 32 + 32 + 32 + 8 + 8 + 8
        + optBytesSize tx.signature + optBytesSize tx.public_key
        + (match tx.memo with | some m => 1 + 8 + m.utf8ByteSize | none => 1)
  | .Subdivision tx =>
      4 + 32 + (8 + (tx.children.map Triangle.serializedSize).sum) + 32 + 8 + 8
        + optBytesSize tx.signature + optBytesSize tx.public_key
  | .Coinbase _ => 4 + 8 + 32 + 8

/-- `Transaction::validate_size`: reject transactions whose bincode
serialization exceeds `MAX_TRANSACTION_SIZE`. -/
def Transaction.validate_size (t : Transaction) : Except ChainError Unit :=
  if t.serializedSize > MAX_TRANSACTION_SIZE then
    .error (.InvalidTransaction "Transaction too large")
  else
    .ok ()

-- ---------------------------------------------------------------------------
-- UTXO state (src/src/blockchain/core/state.rs)
-- ---------------------------------------------------------------------------

/-- Lookup in an association-list map (model of `HashMap::get`). -/
def mget {κ α : Type} [DecidableEq κ] : List (κ × α) → κ → Option α
  | [], _ => none
  | (k', v) :: r, k => if k = k' then some v else mget r k

/-- Deletion from an association-list map (model of `HashMap::remove`). -/
def mremove {κ α : Type} [DecidableEq κ] : List (κ × α) → κ → List (κ × α)
  | [], _ => []
  | (k', v) :: r, k => if k = k' then mremove r k else (k', v) :: mremove r k

/-- Insertion into an association-list map (model of `HashMap::insert`:
replaces any existing binding of the key). -/
def minsert {κ α : Type} [DecidableEq κ] (m : List (κ × α)) (k : κ) (v : α) :
    List (κ × α) :=
  mremove m k ++ [(k, v)]

/-- `TriangleState`: the UTXO set keyed by producing-transaction hash, plus
the derived address-balance index. -/
structure TriangleState where
  utxo_set : List (Sha256Hash × Triangle)
  address_balances : List (Address × Coord)
deriving DecidableEq

/-- `TriangleState::new`. -/
def TriangleState.new : TriangleState := ⟨[], []⟩

/-- `entry(a).or_insert(0) += v` on the balance index. -/
def creditBalance (bal : List (Address × Coord)) (a : Address) (v : Coord) :
    List (Address × Coord) :=
  minsert bal a ((mget bal a).getD 0 + v)

/-- `entry(a).or_insert(0) -= v` followed by the clamp-at-zero guard used by
`apply_transaction` for spends. -/
def debitClampBalance (bal : List (Address × Coord)) (a : Address) (v : Coord) :
    List (Address × Coord) :=
  let n := (mget bal a).getD 0 - v
  minsert bal a (if n < (0 : Int) then 0 else n)

/-- `TriangleState::rebuild_address_balances`: clear the index and re-derive
it as the sum of effective values per owner. -/
def TriangleState.rebuild_address_balances (s : TriangleState) : TriangleState :=
  { s with
    address_balances :=
      s.utxo_set.foldl (fun bal p => creditBalance bal p.2.owner p.2.effective_value) [] }

/-- `TriangleState::get_balance`: the indexed balance, zero when absent. -/
def TriangleState.get_balance (s : TriangleState) (a : Address) : Coord :=
  (mget s.address_balances a).getD 0

/-- `TriangleState::apply_transaction`.  The Rust method mutates `self` in
place and returns a `Result`; the model returns the post-call state together
with the error, if any (on error the caller observes the mutated state). -/
def TriangleState.apply_transaction (H : HashFn) (s : TriangleState)
    (tx : Transaction) (_block_height : Nat) : TriangleState × Option ChainError :=
  match tx with
  | .Coinbase tx =>
      let new_triangle :=
        (Triangle.new ⟨0, 0⟩ ⟨0, 0⟩ ⟨0, 0⟩ none tx.beneficiary_address).with_effective_value
          tx.reward_area
      let tx_hash := Transaction.hash H (.Coinbase tx)
      ({ utxo_set := minsert s.utxo_set tx_hash new_triangle,
         address_balances :=
           creditBalance s.address_balances tx.beneficiary_address tx.reward_area },
       none)
  | .Transfer tx =>
      match mget s.utxo_set tx.input_hash with
      | none => (s, some (.TriangleNotFound "Input UTXO not found for transfer"))
      | some consumed_triangle =>
          let utxo0 := mremove s.utxo_set tx.input_hash
          if consumed_triangle.owner ≠ tx.sender then
            ({ s with utxo_set := minsert utxo0 tx.input_hash consumed_triangle },
             some (.InvalidTransaction "Sender does not own input UTXO"))
          else
            let input_value := consumed_triangle.effective_value
            let total_spent := tx.amount + tx.fee_area
            let remaining_value := input_value - total_spent
            let bal1 := debitClampBalance s.address_balances tx.sender input_value
            let new_owner_triangle :=
              (consumed_triangle.change_owner tx.new_owner).with_effective_value tx.amount
            let tx_hash := Transaction.hash H (.Transfer tx)
            let utxo1 := minsert utxo0 tx_hash new_owner_triangle
            let bal2 := creditBalance bal1 tx.new_owner tx.amount
            if GEOMETRIC_TOLERANCE < remaining_value then
              let change_tx : TransferTx :=
                { input_hash := tx_hash, new_owner := tx.sender, sender := tx.sender,
                  amount := remaining_value, fee_area := 0, nonce := tx.nonce + 1,
                  signature := none, public_key := none, memo := some "Change" }
              let change_hash := Transaction.hash H (.Transfer change_tx)
              let change_triangle :=
                (consumed_triangle.change_owner tx.sender).with_effective_value remaining_value
              ({ utxo_set := minsert utxo1 change_hash change_triangle,
                 address_balances := creditBalance bal2 tx.sender remaining_value },
               none)
            else
              ({ utxo_set := utxo1, address_balances := bal2 }, none)
  | .Subdivision tx =>
      match mget s.utxo_set tx.parent_hash with
      | none => (s, some (.TriangleNotFound "Parent UTXO for subdivision not found"))
      | some consumed_triangle =>
          let utxo0 := mremove s.utxo_set tx.parent_hash
          if consumed_triangle.owner ≠ tx.owner_address then
            ({ s with utxo_set := minsert utxo0 tx.parent_hash consumed_triangle },
             some (.InvalidTransaction "Subdivision owner does not match parent triangle owner"))
          else
            let parent_value := consumed_triangle.effective_value
            let bal1 := debitClampBalance s.address_balances tx.owner_address parent_value
            let total_child_value :=
              tx.children.foldl (fun acc c => acc + c.effective_value) (0 : Coord)
            let expected_value := parent_value - tx.fee_area
            if GEOMETRIC_TOLERANCE < (total_child_value - expected_value).abs then
              ({ utxo_set := minsert utxo0 tx.parent_hash consumed_triangle,
                 address_balances := creditBalance bal1 tx.owner_address parent_value },
               some (.InvalidTransaction "Value mismatch in subdivision"))
            else
              (tx.children.foldl
                (fun st c =>
                  { utxo_set := minsert st.utxo_set (c.hash H) c,
                    address_balances :=
                      creditBalance st.address_balances tx.owner_address c.effective_value })
                { utxo_set := utxo0, address_balances := bal1 },
               none)

-- ---------------------------------------------------------------------------
-- Crypto boundary (src/src/crypto.rs) and transaction validation
-- (src/src/transaction/validation.rs)
-- ---------------------------------------------------------------------------

/-- Abstract model of the secp256k1 library boundary inside
`crypto::verify_signature`: key parsing plus ECDSA verification of
`(public_key, message, signature)`.  Theorems quantify over it. -/
abbrev EcdsaVerify : Type :=
  List Nat → List Nat → List Nat → Except ChainError Unit

/-- `crypto::verify_signature`: the deterministic length checks from the
source, then the abstract ECDSA verification. -/
def verify_signature (V : EcdsaVerify) (public_key message signature : List Nat) :
    Except ChainError Unit :=
  if public_key.length ≠ 33 then
    .error (.CryptoError "Public key must be exactly 33 bytes")
  else if signature.length ≠ 64 then
    .error (.CryptoError "Signature must be exactly 64 bytes")
  else
    V public_key message signature

/-- `CoinbaseTx::validate`: reward bounds and non-empty beneficiary. -/
def CoinbaseTx.validate (tx : CoinbaseTx) : Except ChainError Unit :=
  if tx.reward_area ≤ (0 : Int) then
    .error (.InvalidTransaction "Coinbase reward area must be greater than zero")
  else if CoinbaseTx.MAX_REWARD_AREA < tx.reward_area then
    .error (.InvalidTransaction "Coinbase reward area exceeds maximum")
  else if tx.beneficiary_address = zeroAddress then
    .error (.InvalidTransaction "Coinbase beneficiary address cannot be empty")
  else
    .ok ()

/-- `TransferTx::validate`: the STATELESS checks (signature, addresses, memo
and fee bounds).  It does not consult the UTXO set. -/
def TransferTx.validate (V : EcdsaVerify) (tx : TransferTx) : Except ChainError Unit :=
  if tx.signature.isNone || tx.public_key.isNone then
    .error (.InvalidTransaction "Transfer not signed")
  else if tx.sender = zeroAddress then
    .error (.InvalidTransaction "Sender address cannot be empty")
  else if tx.new_owner = zeroAddress then
    .error (.InvalidTransaction "New owner address cannot be empty")
  else if tx.sender = tx.new_owner then
    .error (.InvalidTransaction "Sender and new owner cannot be the same")
  else if tx.amount < (0 : Int) then
    .error (.InvalidTransaction "Transfer amount cannot be negative")
  else if tx.fee_area < (0 : Int) then
    .error (.InvalidTransaction "Fee area cannot be negative")
  else if tx.amount = (0 : Int) ∧ tx.fee_area = (0 : Int) then
    .error (.InvalidTransaction "Amount and fee cannot both be zero")
  else if (match tx.memo with | some m => decide (m.utf8ByteSize > 256) | none => false) then
    .error (.InvalidTransaction "Memo exceeds maximum length")
  else
    match tx.signature, tx.public_key with
    | some sig, some pk => verify_signature V pk tx.signable_message sig
    | _, _ => .error (.InvalidTransaction "Transfer not signed")

/-- `TransferTx::validate_with_state`: stateless checks, then the UTXO-set
existence, value-sufficiency and ownership checks. -/
def TransferTx.validate_with_state (V : EcdsaVerify) (tx : TransferTx)
    (state : TriangleState) : Except ChainError Unit := do
  tx.validate V
  match mget state.utxo_set tx.input_hash with
  | none => .error (.TriangleNotFound "Transfer input not found in UTXO set")
  | some input_triangle =>
      let input_value := input_triangle.effective_value
      let total_spent := tx.amount + tx.fee_area
      let remaining_value := input_value - total_spent
      if remaining_value < GEOMETRIC_TOLERANCE then
        .error (.InvalidTransaction "Insufficient triangle value")
      else if input_triangle.owner ≠ tx.sender then
        .error (.InvalidTransaction "Sender does not own input triangle")
      else
        .ok ()

/-- `SubdivisionTx::validate_signature`: stateless signature check. -/
def SubdivisionTx.validate_signature (H : HashFn) (V : EcdsaVerify)
    (tx : SubdivisionTx) : Except ChainError Unit :=
  match tx.signature, tx.public_key with
  | some sig, some pk => verify_signature V pk (tx.signable_message H) sig
  | _, _ => .error (.InvalidTransaction "Transaction not signed")

/-- The per-child geometry comparison loop of `SubdivisionTx::validate`:
each supplied child's vertices must `equals` the expected child's. -/
def childGeometryCheck : List Triangle → List Triangle → Except ChainError Unit
  | [], _ => .ok ()
  | _ :: _, [] => .ok ()
  | ch :: cs, ex :: es =>
      if ch.a.equals ex.a && ch.b.equals ex.b && ch.c.equals ex.c then
        childGeometryCheck cs es
      else
        .error (.InvalidTransaction "Child geometry does not match expected subdivision")

/-- `SubdivisionTx::validate`: signature, parent existence, ownership, child
count, and exact geometric agreement with the deterministic subdivide. -/
def SubdivisionTx.validate (H : HashFn) (V : EcdsaVerify) (tx : SubdivisionTx)
    (state : TriangleState) : Except ChainError Unit := do
  tx.validate_signature H V
  match mget state.utxo_set tx.parent_hash with
  | none => .error (.TriangleNotFound "Parent triangle not found in UTXO set")
  | some parent =>
      if parent.owner ≠ tx.owner_address then
        .error (.InvalidTransaction "Subdivision transaction owner does not match parent triangle owner")
      else
        let expected_children := parent.subdivide H
        if tx.children.length ≠ 3 then
          .error (.InvalidTransaction "Subdivision must produce exactly 3 children")
        else
          childGeometryCheck tx.children expected_children

/-- `Transaction::validate` (src/src/transaction/validation.rs, lines 10-16):
the state-aware dispatch.  NOTE (faithful to the source): the `Transfer` arm
calls the STATELESS `TransferTx::validate`, not `validate_with_state`; the
`state` argument is not consulted for transfers. -/
def Transaction.validate (H : HashFn) (V : EcdsaVerify) (state : TriangleState) :
    Transaction → Except ChainError Unit
  | .Subdivision tx => tx.validate H V state
  | .Coinbase tx => tx.validate
  | .Transfer tx => tx.validate V

-- ---------------------------------------------------------------------------
-- Block-level validation (src/src/blockchain/core/validation.rs)
-- ---------------------------------------------------------------------------

/-- The UTXO key a transaction consumes, if any (`Transfer.input_hash`,
`Subdivision.parent_hash`). -/
def Transaction.consumedKey : Transaction → Option Sha256Hash
  | .Transfer t => some t.input_hash
  | .Subdivision s => some s.parent_hash
  | .Coinbase _ => none

/-- The scanning loop of `validate_no_double_spend` with its `seen_inputs`
accumulator (consumed key ↦ consuming transaction hash). -/
def noDoubleSpendGo (H : HashFn) :
    List Transaction → List (Sha256Hash × Sha256Hash) → Except ChainError Unit
  | [], _ => .ok ()
  | tx :: rest, seen =>
      match tx.consumedKey with
      | none => noDoubleSpendGo H rest seen
      | some h =>
          match mget seen h with
          | some _ => .error (.InvalidTransaction "Double spend detected in block")
          | none => noDoubleSpendGo H rest (minsert seen h (tx.hash H))

-- ---------------------------------------------------------------------------
-- Blocks and proof-of-work (src/src/blockchain/core/chain.rs)
-- ---------------------------------------------------------------------------

/-- `BlockHeader`. -/
structure BlockHeader where
  height : Nat
  timestamp : Nat
  previous_hash : Sha256Hash
  merkle_root : Sha256Hash
  difficulty : Nat
  nonce : Nat
deriving DecidableEq

/-- The byte stream fed to SHA-256 by `BlockHeader::hash` (exact order). -/
def BlockHeader.hashBytes (h : BlockHeader) : List Nat :=
  u64le h.height ++ u64le h.timestamp ++ h.previous_hash.val
    ++ h.merkle_root.val ++ u32le h.difficulty ++ u64le h.nonce

/-- `BlockHeader::hash`. -/
def BlockHeader.hash (H : HashFn) (h : BlockHeader) : Sha256Hash :=
  H h.hashBytes

/-- `Block`. -/
structure Block where
  header : BlockHeader
  transactions : List Transaction
deriving DecidableEq

/-- `Block::hash` is the header hash. -/
def Block.hash (H : HashFn) (b : Block) : Sha256Hash :=
  b.header.hash H

/-- `Block::calculate_merkle_root`: a flat SHA-256 over the concatenation of
the transaction hashes (the source's convention, not a tree). -/
def Block.calculate_merkle_root (H : HashFn) (transactions : List Transaction) :
    Sha256Hash :=
  H (transactions.flatMap fun tx => (tx.hash H).val)

/-- `validate_no_double_spend` over a block's transactions. -/
def validate_no_double_spend (H : HashFn) (block : Block) : Except ChainError Unit :=
  noDoubleSpendGo H block.transactions []

/-- `Block::hash_as_u256`: the identity on the 32-byte hash. -/
def Block.hash_as_u256 (h : Sha256Hash) : Sha256Hash := h

/-- `Block::hash_to_target`: `difficulty / 8` leading zero bytes, then (when
`difficulty % 8 > 0` and the index is in range) a byte `0xFF >> (difficulty % 8)`,
then `0xFF` for the remaining bytes. -/
def Block.hash_to_target (difficulty : Nat) : Sha256Hash :=
  ⟨(List.range 32).map (fun i =>
      if i < difficulty / 8 then 0
      else if i = difficulty / 8 ∧ difficulty % 8 > 0 then 255 >>> (difficulty % 8)
      else 255), by
    constructor
    · simp
    · simp only [List.all_eq_true, List.mem_map, List.mem_range]
      rintro b ⟨i, -, rfl⟩
      refine decide_eq_true ?_
      split
      · norm_num
      split
      · calc 255 >>> (difficulty % 8) ≤ 255 := by
              rw [Nat.shiftRight_eq_div_pow]; exact Nat.div_le_self _ _
          _ < 256 := by norm_num
      · norm_num⟩

-- ---------------------------------------------------------------------------
-- Mempool and persistence (src/src/persistence.rs; mempool modelled)
-- ---------------------------------------------------------------------------

/-- Modelled from the spec: `src/src/mempool.rs` is declared in `lib.rs` but
the file is missing from `src/`.  Spec §4.M: a mapping from transaction hash
to `Transaction`. -/
abbrev Mempool : Type := List (Sha256Hash × Transaction)

/-- Modelled from the spec: `Mempool::remove(hash)` is idempotent removal. -/
def Mempool.remove_transaction (m : Mempool) (h : Sha256Hash) : Mempool :=
  mremove m h

/-- `InMemoryPersistence`: the contents of its three mutex-guarded cells. -/
structure InMemoryPersistence where
  blocks : List Block
  state : TriangleState
  difficulty : Nat
deriving DecidableEq

/-- `InMemoryPersistence::new` (initial difficulty cell is 2). -/
def InMemoryPersistence.new : InMemoryPersistence :=
  ⟨[], TriangleState.new, 2⟩

/-- `blocks.retain(|b| b.header.height != h)`. -/
def retainOtherHeights : List Block → Nat → List Block
  | [], _ => []
  | b :: r, h =>
      if b.header.height = h then retainOtherHeights r h
      else b :: retainOtherHeights r h

/-- `InMemoryPersistence::save_blockchain_state`: drop any stored block at
the same height, append the block, overwrite the state, and store the
difficulty (a `u64` argument narrowed by `as u32`, i.e. mod 2^32). -/
def InMemoryPersistence.save_blockchain_state (p : InMemoryPersistence)
    (block : Block) (state : TriangleState) (difficulty : Nat) : InMemoryPersistence :=
  { blocks := retainOtherHeights p.blocks block.header.height ++ [block],
    state := state,
    difficulty := difficulty % 2 ^ 32 }

-- ---------------------------------------------------------------------------
-- Chain (src/src/blockchain/core/chain.rs)
-- ---------------------------------------------------------------------------

/-- `DIFFICULTY_ADJUSTMENT_INTERVAL`. -/
def DIFFICULTY_ADJUSTMENT_INTERVAL : Nat := 10

/-- `TARGET_BLOCK_TIME` (seconds). -/
def TARGET_BLOCK_TIME : Nat := 30

/-- `Blockchain`. -/
structure Blockchain where
  blocks : List Block
  difficulty : Nat
  mempool : Mempool
  state : TriangleState
  persistence : InMemoryPersistence
deriving DecidableEq

/-- `Blockchain::verify_pow`: block hash, as a 32-byte big-endian integer
(array comparison), at most the target of the header's own difficulty. -/
def Blockchain.verify_pow (H : HashFn) (_c : Blockchain) (block : Block) : Bool :=
  bytesLe (Block.hash_as_u256 (block.hash H)).val (Block.hash_to_target block.header.difficulty).val

/-- The clamped retarget fraction `clamp(actual/expected, 1/4, 4)` as an
exact numerator/denominator pair of naturals. -/
def clampedRatio (actual expected : Nat) : Nat × Nat :=
  if 4 * actual < expected then (1, 4)
  else if 4 * expected < actual then (4, 1)
  else (actual, expected)

/-- `Blockchain::adjust_difficulty`.  The source computes
`ratio = (actual/expected).clamp(0.25, 4.0)` in `f64` and narrows
`difficulty as f64 * ratio` with `as u32` (truncation toward zero,
saturating at the `u32` range).  The `f64` arithmetic is modelled as exact
rational arithmetic, the clamped ratio carried as a numerator/denominator
pair of naturals (every value appearing in a theorem below is represented
exactly by `f64`).  The `u64` timestamp subtraction wraps modulo 2^64 in a
release build and is modelled so (`(a + 2^64 - b) % 2^64`, the value of
`u64::wrapping_sub` for operands below 2^64); a debug build would panic on
a decreasing window instead, which is not modelled — the retargeting
theorems carry a monotone-window hypothesis under which both builds agree
with the plain difference. -/
def Blockchain.adjust_difficulty (c : Blockchain) : Nat :=
  let current_height := (c.blocks.getLast?).elim 0 (fun b => b.header.height)
  if current_height > 0 ∧ current_height % DIFFICULTY_ADJUSTMENT_INTERVAL = 0 then
    match c.blocks[(current_height - DIFFICULTY_ADJUSTMENT_INTERVAL)]? with
    | some last_adjustment_block =>
        match c.blocks.getLast? with
        | some last_block =>
            let actual_time :=
              (last_block.header.timestamp + 2 ^ 64
                - last_adjustment_block.header.timestamp) % 2 ^ 64
            let expected_time := DIFFICULTY_ADJUSTMENT_INTERVAL * TARGET_BLOCK_TIME * 1000
            let ratio := clampedRatio actual_time expected_time
            let new_difficulty := min (c.difficulty * ratio.1 / ratio.2) (2 ^ 32 - 1)
            max new_difficulty 1
        | none => c.difficulty
    | none => c.difficulty
  else c.difficulty

/-- Step 1 of `apply_block`: genesis/linkage checks. -/
def linkageCheck (H : HashFn) (c : Blockchain) (block : Block) :
    Except ChainError Unit :=
  if block.header.height = 0 then
    if c.blocks ≠ [] then
      .error (.InvalidBlock "Genesis block can only be applied to an empty chain.")
    else
      .ok ()
  else
    match c.blocks.getLast? with
    | none => .error (.InvalidBlock "Cannot apply non-genesis block; the chain is empty.")
    | some last_block =>
        if block.header.height ≠ last_block.header.height + 1 then
          .error (.InvalidBlock "Invalid block height.")
        else if block.header.previous_hash ≠ last_block.hash H then
          .error (.InvalidBlock "Invalid previous block hash.")
        else
          .ok ()

/-- The index-sensitive validation step of the `apply_block` loop: index 0
must be a Coinbase (only its variant is checked); later indices run the
state-aware `validate`. -/
def coinbaseGuard (H : HashFn) (V : EcdsaVerify) (i : Nat) (tx : Transaction)
    (st : TriangleState) : Except ChainError Unit :=
  if i = 0 then
    match tx with
    | .Coinbase _ => Except.ok ()
    | _ => .error (.InvalidBlock "First transaction in a block must be a Coinbase transaction.")
  else
    tx.validate H V st

/-- The per-transaction pipeline of `apply_block`: size check; coinbase-only
at index 0, state-aware `validate` for later indices; then
`apply_transaction` on the shadow state.  Rust's `?` early returns are the
explicit error matches. -/
def applyTxs (H : HashFn) (V : EcdsaVerify) (height : Nat) :
    Nat → List Transaction → TriangleState → Except ChainError TriangleState
  | _, [], st => .ok st
  | i, tx :: rest, st =>
      match tx.validate_size with
      | .error e => .error e
      | .ok _ =>
          match coinbaseGuard H V i tx st with
          | .error e => .error e
          | .ok _ =>
              match st.apply_transaction H tx height with
              | (_, some e) => .error e
              | (st1, none) => applyTxs H V height (i + 1) rest st1

/-- `Blockchain::apply_block`: linkage, PoW, in-block double-spend scan,
shadow-state transaction pipeline, Merkle check, then commit (push block,
replace state, evict from mempool, persist pre-retarget difficulty,
retarget).  Rust's `?` early returns are the explicit error matches. -/
def Blockchain.apply_block (H : HashFn) (V : EcdsaVerify) (c : Blockchain)
    (block : Block) : Except ChainError Blockchain :=
  match linkageCheck H c block with
  | .error e => .error e
  | .ok _ =>
      if ¬ c.verify_pow H block then
        .error (.InvalidBlock "Invalid Proof-of-Work: Block hash does not meet difficulty target.")
      else
        match validate_no_double_spend H block with
        | .error e => .error e
        | .ok _ =>
            match applyTxs H V block.header.height 0 block.transactions c.state with
            | .error e => .error e
            | .ok temp_state =>
                if Block.calculate_merkle_root H block.transactions ≠ block.header.merkle_root then
                  .error (.InvalidBlock "Merkle root mismatch.")
                else
                  let c1 : Blockchain :=
                    { blocks := c.blocks ++ [block],
                      difficulty := c.difficulty,
                      mempool :=
                        block.transactions.foldl
                          (fun m tx => Mempool.remove_transaction m (tx.hash H)) c.mempool,
                      state := temp_state,
                      persistence :=
                        c.persistence.save_blockchain_state block temp_state c.difficulty }
                  .ok { c1 with difficulty := c1.adjust_difficulty }

/-- The all-zero 32-byte hash. -/
def zeroHash : Sha256Hash :=
  ⟨List.replicate 32 0, by constructor <;> simp⟩

/-- Modelled from the spec: `src/src/miner.rs` is declared in `lib.rs` but
the file is missing from `src/`.  Spec §4.B: increment `nonce` until the
block hash is ≤ the target; the search is given explicit fuel covering the
nonce space (the timestamp-bump-on-`u64`-overflow branch lies beyond the
fuel and is not modelled). -/
def mine_block (H : HashFn) : Nat → Block → Except ChainError Block
  | 0, _ => .error (.InvalidBlock "mining search exhausted")
  | fuel + 1, b =>
      if bytesLe ((b.hash H).val) ((Block.hash_to_target b.header.difficulty).val) then
        .ok b
      else
        mine_block H fuel { b with header := { b.header with nonce := b.header.nonce + 1 } }

/-- `Blockchain::create_genesis_block`: the fixed-timestamp genesis carrying
a coinbase of 1,000,000 units, mined at the initial difficulty. -/
def Blockchain.create_genesis_block (H : HashFn) (miner_address : Address)
    (initial_difficulty : Nat) : Except ChainError Block :=
  let coinbase_tx : Transaction :=
    .Coinbase { reward_area := Coord.ofInt 1000000,
                beneficiary_address := miner_address, nonce := 0 }
  let transactions := [coinbase_tx]
  let merkle_root := Block.calculate_merkle_root H transactions
  mine_block H (2 ^ 64)
    { header := { height := 0, timestamp := 1672531200000, previous_hash := zeroHash,
                  merkle_root := merkle_root, difficulty := initial_difficulty, nonce := 0 },
      transactions := transactions }

/-- `Blockchain::new` (= `new_with_persistence` with a fresh in-memory
backend): build and mine the genesis block, then `apply_block` it onto an
empty chain. -/
def Blockchain.new (H : HashFn) (V : EcdsaVerify) (genesis_miner_address : Address)
    (initial_difficulty : Nat) : Except ChainError Blockchain := do
  let genesis_block ← Blockchain.create_genesis_block H genesis_miner_address initial_difficulty
  let blockchain : Blockchain :=
    { blocks := [], difficulty := initial_difficulty, mempool := [],
      state := TriangleState.new, persistence := InMemoryPersistence.new }
  blockchain.apply_block H V genesis_block

/-- `InMemoryPersistence::load_blockchain`: an empty store yields a freshly
initialized chain (`Blockchain::new([0; 32], 2)`); otherwise the stored
blocks, state and difficulty with a fresh mempool. -/
def InMemoryPersistence.load_blockchain (H : HashFn) (V : EcdsaVerify)
    (p : InMemoryPersistence) : Except ChainError Blockchain :=
  if p.blocks = [] then
    Blockchain.new H V zeroAddress 2
  else
    .ok { blocks := p.blocks, difficulty := p.difficulty, mempool := [],
          state := p.state, persistence := p }

/-- `Blockchain::calculate_block_reward` (`f64` halving schedule, modelled
with exact rationals). -/
def Blockchain.calculate_block_reward (height : Nat) : ℚ :=
  let halving_count := height / 210000
  if halving_count ≥ 64 then 0 else (50 : ℚ) / (2 ^ halving_count : ℚ)

-- ---------------------------------------------------------------------------
-- Concrete instantiations for evaluation
-- ---------------------------------------------------------------------------

/-- Executable stand-in for the abstract SHA-256 oracle, used only to
evaluate the embedding on concrete scenarios (a polynomial byte fold). -/
def demoHash : HashFn := fun bs =>
  natToBe32 (bs.foldl (fun a b => a * 257 + b + 1) 1)

/-- ECDSA stand-in under which every well-formed signature verifies. -/
def acceptSig : EcdsaVerify := fun _ _ _ => .ok ()

/-- Test address (all bytes 1). -/
def addr1 : Address := List.replicate 32 1

/-- Test address (all bytes 2). -/
def addrB : Address := List.replicate 32 2

/-- A well-formed 64-byte signature placeholder. -/
def sig64 : List Nat := List.replicate 64 7

/-- A well-formed 33-byte compressed-public-key placeholder. -/
def pk33 : List Nat := List.replicate 33 9

/-- An empty chain, as `new_with_persistence` holds it just before applying
the genesis block (initial difficulty 0). -/
def chain0 : Blockchain :=
  ⟨[], 0, [], TriangleState.new, InMemoryPersistence.new⟩

/-- The spec-side sum `Σ t.effective_value` over UTXO entries owned by `a`
(the right-hand side of the balance law). -/
def utxoOwnedSum (s : TriangleState) (a : Address) : Coord :=
  s.utxo_set.foldl (fun acc p => if p.2.owner = a then acc + p.2.effective_value else acc)
    (0 : Int)

-- Scenario for C1: a transfer overspending its input is applied, not rejected.

/-- Coinbase to `addr1` worth 10 units (genesis of the C1 scenario). -/
def c1Coinbase : Transaction := .Coinbase ⟨Coord.ofInt 10, addr1, 0⟩

/-- Genesis-shaped block carrying `c1Coinbase` (header difficulty 0). -/
def c1Gen : Block :=
  ⟨⟨0, 1000, zeroHash, Block.calculate_merkle_root demoHash [c1Coinbase], 0, 0⟩,
   [c1Coinbase]⟩

/-- The transfer of the C1 scenario: amount 9.5 plus fee 0.75 exceeds the
input value 10, so the remaining value -0.25 is far below the tolerance. -/
def c1Transfer : TransferTx :=
  { input_hash := Transaction.hash demoHash c1Coinbase,
    new_owner := addrB, sender := addr1,
    amount := 19 * 2 ^ 31, fee_area := 3 * 2 ^ 30, nonce := 1,
    signature := some sig64, public_key := some pk33, memo := none }

/-- Height-1 block containing the overspending transfer at index 1. -/
def c1Block2 : Block :=
  ⟨⟨1, 2000, Block.hash demoHash c1Gen,
    Block.calculate_merkle_root demoHash [.Coinbase ⟨Coord.ofInt 5, addrB, 1⟩, .Transfer c1Transfer],
    0, 0⟩,
   [.Coinbase ⟨Coord.ofInt 5, addrB, 1⟩, .Transfer c1Transfer]⟩

/-- The C1 run: genesis, then the block with the overspending transfer. -/
def c1Run : Except ChainError Blockchain := do
  let c1 ← chain0.apply_block demoHash acceptSig c1Gen
  c1.apply_block demoHash acceptSig c1Block2


-- Scenario for C2/C4: the 1,000,000-unit genesis coinbase, duplicated.

/-- The genesis coinbase built by `create_genesis_block` for miner `addr1`. -/
def c2Coinbase : Transaction := .Coinbase ⟨Coord.ofInt 1000000, addr1, 0⟩

/-- The genesis block `Blockchain::new(addr1, 0)` mines (the proof-of-work
at difficulty 0 is met at nonce 0). -/
def c2Gen : Block :=
  ⟨⟨0, 1672531200000, zeroHash, Block.calculate_merkle_root demoHash [c2Coinbase], 0, 0⟩,
   [c2Coinbase]⟩

/-- Height-1 block whose index-0 coinbase is byte-identical to the genesis
coinbase (same reward, beneficiary and nonce, hence the same hash). -/
def c2Block1 : Block :=
  ⟨⟨1, 1672531230000, Block.hash demoHash c2Gen,
    Block.calculate_merkle_root demoHash [c2Coinbase], 0, 0⟩,
   [c2Coinbase]⟩

/-- The C2 run: a freshly created chain, then the duplicate-coinbase block. -/
def c2Run : Except ChainError Blockchain := do
  let c ← Blockchain.new demoHash acceptSig addr1 0
  c.apply_block demoHash acceptSig c2Block1


-- Scenario for C3: failed subdivision on a state with a drifted balance index.

/-- UTXO key of the C3 parent triangle. -/
def c3Key : Sha256Hash := natToBe32 7

/-- The C3 parent triangle: owned by `addr1`, effective value 10. -/
def c3Tri : Triangle := ⟨⟨0, 0⟩, ⟨0, 0⟩, ⟨0, 0⟩, none, addr1, some (Coord.ofInt 10)⟩

/-- A state whose balance index has drifted: `addr1` owns a value-10 triangle
but is indexed at only 3. -/
def c3State : TriangleState := ⟨[(c3Key, c3Tri)], [(addr1, Coord.ofInt 3)]⟩

/-- A subdivision whose children (none at all) cannot match the parent value,
forcing the value-mismatch error path. -/
def c3Sub : Transaction := .Subdivision ⟨c3Key, [], addr1, 0, 0, none, none⟩


-- Scenario for C4's amended claim: a block with a bounds-valid coinbase at index 1.

/-- Height-1 block carrying two coinbases; the one at index 1 passes
`CoinbaseTx::validate`. -/
def c4wBlock : Block :=
  ⟨⟨1, 3000, Block.hash demoHash c1Gen,
    Block.calculate_merkle_root demoHash
      [.Coinbase ⟨Coord.ofInt 5, addrB, 2⟩, .Coinbase ⟨Coord.ofInt 7, addr1, 3⟩],
    0, 0⟩,
   [.Coinbase ⟨Coord.ofInt 5, addrB, 2⟩, .Coinbase ⟨Coord.ofInt 7, addr1, 3⟩]⟩

/-- The C4-witness run: C1 genesis, then the two-coinbase block. -/
def c4wRun : Except ChainError Blockchain := do
  let c1 ← chain0.apply_block demoHash acceptSig c1Gen
  c1.apply_block demoHash acceptSig c4wBlock


-- Scenario for C5: two transfers consuming the same UTXO key in one block.

/-- The UTXO key both C5 transfers consume. -/
def c5Key : Sha256Hash := natToBe32 99

/-- First transfer consuming `c5Key`. -/
def c5T1 : TransferTx :=
  { input_hash := c5Key, new_owner := addrB, sender := addr1,
    amount := Coord.ofInt 1, fee_area := 0, nonce := 4,
    signature := some sig64, public_key := some pk33, memo := none }

/-- Second transfer consuming `c5Key` (different nonce, same input). -/
def c5T2 : TransferTx := { c5T1 with nonce := 5 }

/-- Genesis-shaped block carrying the two conflicting transfers. -/
def c5Block : Block :=
  ⟨⟨0, 100, zeroHash,
    Block.calculate_merkle_root demoHash
      [.Coinbase ⟨Coord.ofInt 5, addr1, 9⟩, .Transfer c5T1, .Transfer c5T2],
    0, 0⟩,
   [.Coinbase ⟨Coord.ofInt 5, addr1, 9⟩, .Transfer c5T1, .Transfer c5T2]⟩


-- Scenario for C6: a height-0 block with a non-zero previous hash.

/-- Genesis-shaped block whose `previous_hash` is NOT the all-zero hash. -/
def c6Gen : Block :=
  ⟨⟨0, 500, natToBe32 1,
    Block.calculate_merkle_root demoHash [.Coinbase ⟨Coord.ofInt 3, addr1, 4⟩], 0, 0⟩,
   [.Coinbase ⟨Coord.ofInt 3, addr1, 4⟩]⟩


-- Scenario for C7: ten blocks after genesis with actual time 2.5 × expected.

/-- First saved block (height 0). -/
def c10BlockA : Block := c1Gen

/-- Second saved block: same height 0, different nonce. -/
def c10BlockB : Block := { c1Gen with header := { c1Gen.header with nonce := 1 } }

/-- The store after saving `c10BlockA` and then `c10BlockB`. -/
def c10Store : InMemoryPersistence :=
  (InMemoryPersistence.new.save_blockchain_state c10BlockA TriangleState.new 5).save_blockchain_state
    c10BlockB TriangleState.new 6


-- Scaffolding for witness instantiations.

/-- The chain a successful run produced (falls back to the default chain on
error; used only to name concrete results in witnesses). -/
def chainOf (r : Except ChainError Blockchain) (dflt : Blockchain) : Blockchain :=
  match r with
  | .ok c => c
  | .error _ => dflt

/-- The chain after applying the C1 genesis block. -/
def c1ChainAfterGen : Blockchain :=
  chainOf (chain0.apply_block demoHash acceptSig c1Gen) chain0

/-- The chain after additionally applying the two-coinbase block. -/
def c4wChain : Blockchain :=
  chainOf (c1ChainAfterGen.apply_block demoHash acceptSig c4wBlock) chain0

/-- The chain after applying the nonzero-previous-hash genesis block. -/
def c6wChain : Blockchain :=
  chainOf (chain0.apply_block demoHash acceptSig c6Gen) chain0

/-- Does a failing `apply_transaction` avoid the lossy clamp?  True unless
the transaction is a Subdivision whose parent exists but whose owner's
indexed balance lies below the parent's effective value. -/
def subdivisionNoClamp (s : TriangleState) (tx : Transaction) : Bool :=
  match tx with
  | .Subdivision st =>
      match mget s.utxo_set st.parent_hash with
      | some p => decide (p.effective_value ≤ s.get_balance st.owner_address)
      | none => true
  | _ => true

/-- State for the C3-amended witness: balance index consistent with the
value-10 parent triangle (indexed at 15). -/
def c3wState : TriangleState := ⟨[(c3Key, c3Tri)], [(addr1, Coord.ofInt 15)]⟩

/-- Subdivision for the C3-amended witness (empty children force the
value-mismatch error; no clamping occurs). -/
def c3wSub : Transaction := .Subdivision ⟨c3Key, [], addr1, 0, 1, none, none⟩

/-- The chain loaded back for the C10-amended witness. -/
def c10wLoaded : Blockchain :=
  chainOf
    ((InMemoryPersistence.new.save_blockchain_state c10BlockA TriangleState.new
        5).load_blockchain demoHash acceptSig)
    chain0

-- ---------------------------------------------------------------------------
-- Association-list map lemmas
-- ---------------------------------------------------------------------------

theorem mget_append {κ α : Type} [DecidableEq κ] (l1 l2 : List (κ × α)) (k : κ) :
    mget (l1 ++ l2) k = ((mget l1 k).elim (mget l2 k) some) := by
  induction l1 with
  | nil => simp [mget]
  | cons p r ih =>
      obtain ⟨k', v⟩ := p
      by_cases h : k = k' <;> simp [mget, h, ih]

theorem mget_mremove {κ α : Type} [DecidableEq κ] (m : List (κ × α)) (k k2 : κ) :
    mget (mremove m k) k2 = if k2 = k then none else mget m k2 := by
  induction m with
  | nil => simp [mget, mremove]
  | cons p r ih =>
      obtain ⟨k', v⟩ := p
      simp only [mget, mremove]
      by_cases h1 : k = k' <;> by_cases h2 : k2 = k' <;> by_cases h3 : k2 = k <;>
        simp [mget, h1, h2, h3, ih] <;> simp_all

theorem mget_minsert {κ α : Type} [DecidableEq κ] (m : List (κ × α)) (k k2 : κ) (v : α) :
    mget (minsert m k v) k2 = if k2 = k then some v else mget m k2 := by
  unfold minsert
  rw [mget_append, mget_mremove]
  by_cases h : k2 = k
  · simp [mget, h]
  · rw [if_neg h, if_neg h]
    cases hm : mget m k2 <;> simp [mget, hm, h]

theorem mget_restore {κ α : Type} [DecidableEq κ] {m : List (κ × α)} {k : κ} {v : α}
    (h : mget m k = some v) (k2 : κ) :
    mget (minsert (mremove m k) k v) k2 = mget m k2 := by
  rw [mget_minsert]
  · by_cases h2 : k2 = k
    · rw [h2, h, if_pos rfl]
    · rw [if_neg h2, mget_mremove, if_neg h2]

-- ---------------------------------------------------------------------------
-- Claim theorems
-- ---------------------------------------------------------------------------

/-- C9: `Triangle::subdivide` returns exactly the three corner triangles
`(a, m_ab, m_ca)`, `(m_ab, b, m_bc)`, `(m_ca, m_bc, c)` built from the side
midpoints, each owned by the parent's owner and valued at the parent's
effective value divided by 3. -/
theorem C9_subdivide_corner_children (H : HashFn) (t : Triangle) :
    t.subdivide H =
      [⟨t.a, t.a.midpoint t.b, t.c.midpoint t.a, some (t.hash H), t.owner,
        some (t.effective_value.divInt 3)⟩,
       ⟨t.a.midpoint t.b, t.b, t.b.midpoint t.c, some (t.hash H), t.owner,
        some (t.effective_value.divInt 3)⟩,
       ⟨t.c.midpoint t.a, t.b.midpoint t.c, t.c, some (t.hash H), t.owner,
        some (t.effective_value.divInt 3)⟩] := rfl

/-- C1 (code bug): in the C1 scenario the input UTXO exists with effective
value 10, the transfer at index 1 spends amount + fee = 10.25 so the
remaining value is below `GEOMETRIC_TOLERANCE`, yet `apply_block` ACCEPTS
the block and commits the overdrawn output to `addrB`; the "Insufficient"
rejection required by the claim lives only in
`TransferTx::validate_with_state`, which the `Transaction::validate`
dispatch never calls for transfers. -/
theorem C1_apply_block_accepts_insufficient_transfer :
    (chain0.apply_block demoHash acceptSig c1Gen).map
        (fun c => (mget c.state.utxo_set c1Transfer.input_hash).map Triangle.effective_value)
      = .ok (some (Coord.ofInt 10)) ∧
    Coord.ofInt 10 - (c1Transfer.amount + c1Transfer.fee_area) < GEOMETRIC_TOLERANCE ∧
    c1Run.map
        (fun c => mget c.state.utxo_set (Transaction.hash demoHash (.Transfer c1Transfer)))
      = .ok (some ⟨⟨0, 0⟩, ⟨0, 0⟩, ⟨0, 0⟩, none, addrB, some c1Transfer.amount⟩) := by
  decide

/-- C2 (code bug): after a fresh chain (`Blockchain::new(addr1, 0)`) accepts
a height-1 block whose coinbase is byte-identical to the genesis coinbase,
the balance index records 2,000,000 for the miner while the UTXO set sums to
1,000,000 (the duplicate hash overwrites the UTXO entry but the balance is
credited twice), violating the balance law. -/
theorem C2_balance_law_violated_by_duplicate_coinbase :
    c2Run.map (fun c => (c.state.get_balance addr1, utxoOwnedSum c.state addr1))
      = .ok (Coord.ofInt 2000000, Coord.ofInt 1000000) ∧
    (Coord.ofInt 2000000 : Int) ≠ Coord.ofInt 1000000 := by
  decide

/-- C3 (counterexample): on a state whose balance index (3) is below the
consumed triangle's effective value (10), the subdivision value-mismatch
path returns an error but leaves the owner's balance at 10, not the entry
value 3 — the clamp-at-zero during the debit makes the revert lossy, so the
state is NOT unchanged on this failure path. -/
theorem C3_counterexample_drifted_subdivision_revert :
    (c3State.apply_transaction demoHash c3Sub 1).2
      = some (.InvalidTransaction "Value mismatch in subdivision") ∧
    c3State.get_balance addr1 = Coord.ofInt 3 ∧
    (c3State.apply_transaction demoHash c3Sub 1).1.get_balance addr1 = Coord.ofInt 10 := by
  decide

/-- C4 (counterexample): the genesis block built by `create_genesis_block`
is accepted by `apply_block` on an empty chain although its (index-0)
coinbase reward of 1,000,000 exceeds `MAX_REWARD_AREA = 1000`; index-0
coinbases are only matched for their variant, never bounds-checked. -/
theorem C4_counterexample_genesis_reward_exceeds_max :
    exceptOk (chain0.apply_block demoHash acceptSig c2Gen) = true ∧
    c2Gen.transactions = [.Coinbase ⟨Coord.ofInt 1000000, addr1, 0⟩] ∧
    ¬ ((Coord.ofInt 1000000 : Int) ≤ CoinbaseTx.MAX_REWARD_AREA) := by
  decide

/-- C5 (counterexample): a block containing two transfers that consume the
same UTXO key is rejected, but with `InvalidTransaction("Double spend
detected in block…")` — not with the `DoubleSpendDetected` variant the claim
names (that variant exists in `ChainError` but `validate_no_double_spend`
does not use it). -/
theorem C5_counterexample_double_spend_error_variant :
    c5T1.input_hash = c5T2.input_hash ∧
    chain0.apply_block demoHash acceptSig c5Block
      = .error (.InvalidTransaction "Double spend detected in block") ∧
    (ChainError.InvalidTransaction "Double spend detected in block").isDoubleSpendDetected
      = false := by
  decide

/-- C6 (counterexample): a height-0 block whose `previous_hash` is NOT the
all-zero hash is accepted onto an empty chain — `apply_block` checks only
`height == 0` in the genesis case and never inspects `previous_hash`. -/
theorem C6_counterexample_genesis_nonzero_previous_hash_accepted :
    chain0.blocks = [] ∧
    c6Gen.header.previous_hash ≠ zeroHash ∧
    exceptOk (chain0.apply_block demoHash acceptSig c6Gen) = true := by
  decide

/-- C10 (counterexample): after saving block A (height 0) and then a
different block B at the same height, `load_blockchain` returns only B —
the earlier saved block is replaced, so the loaded chain does not include
every saved block. -/
theorem C10_counterexample_same_height_save_replaces :
    (c10Store.load_blockchain demoHash acceptSig).map Blockchain.blocks = .ok [c10BlockB] ∧
    c10BlockA ≠ c10BlockB ∧
    c10BlockA ∉ ([c10BlockB] : List Block) := by
  decide


-- ---------------------------------------------------------------------------
-- Inversion lemmas for the apply-block pipeline
-- ---------------------------------------------------------------------------

theorem apply_block_ok_elim {H : HashFn} {V : EcdsaVerify} {c : Blockchain} {block : Block}
    {c' : Blockchain} (h : c.apply_block H V block = .ok c') :
    linkageCheck H c block = .ok () ∧
    c.verify_pow H block = true ∧
    validate_no_double_spend H block = .ok () ∧
    ∃ st, applyTxs H V block.header.height 0 block.transactions c.state = .ok st ∧
      Block.calculate_merkle_root H block.transactions = block.header.merkle_root ∧
      c'.blocks = c.blocks ++ [block] ∧
      c'.state = st ∧
      c'.difficulty = Blockchain.adjust_difficulty
        { blocks := c.blocks ++ [block], difficulty := c.difficulty,
          mempool := block.transactions.foldl
            (fun m tx => Mempool.remove_transaction m (tx.hash H)) c.mempool,
          state := st,
          persistence := c.persistence.save_blockchain_state block st c.difficulty } := by
  unfold Blockchain.apply_block at h
  cases hlink : linkageCheck H c block with
  | error e => rw [hlink] at h; exact absurd h (by simp)
  | ok u =>
      rw [hlink] at h
      dsimp only at h
      by_cases hpow : c.verify_pow H block = true
      · rw [if_neg (by simp [hpow])] at h
        cases hvnds : validate_no_double_spend H block with
        | error e => rw [hvnds] at h; exact absurd h (by simp)
        | ok u3 =>
            rw [hvnds] at h
            dsimp only at h
            cases happ : applyTxs H V block.header.height 0 block.transactions c.state with
            | error e => rw [happ] at h; exact absurd h (by simp)
            | ok st =>
                rw [happ] at h
                dsimp only at h
                by_cases hm :
                    Block.calculate_merkle_root H block.transactions = block.header.merkle_root
                · rw [if_neg (by simp [hm])] at h
                  have hc' := (Except.ok.inj h).symm
                  exact ⟨rfl, hpow, rfl, st, rfl, hm, by rw [hc'], by rw [hc'],
                    by rw [hc']⟩
                · rw [if_pos hm] at h
                  exact absurd h (by simp)
      · rw [if_pos (by simp [hpow])] at h
        exact absurd h (by simp)

/-- C6 (amended): an accepted block satisfies `height = 0` when the chain was
empty, and exact height/previous-hash linkage when it was not; the claim's
additional all-zero `previous_hash` requirement for the empty-chain case is
not checked by the code (see the counterexample). -/
theorem C6_amended_linkage (H : HashFn) (V : EcdsaVerify) (c : Blockchain) (block : Block)
    (c' : Blockchain) (h : c.apply_block H V block = .ok c') :
    (c.blocks = [] → block.header.height = 0) ∧
    ∀ last, c.blocks.getLast? = some last →
      block.header.height = last.header.height + 1 ∧
      block.header.previous_hash = last.hash H := by
  have hlink := (apply_block_ok_elim h).1
  unfold linkageCheck at hlink
  by_cases hz : block.header.height = 0
  · rw [if_pos hz] at hlink
    by_cases hne : c.blocks ≠ []
    · rw [if_pos hne] at hlink
      exact absurd hlink (by simp)
    · push_neg at hne
      refine ⟨fun _ => hz, fun last hlast => ?_⟩
      rw [hne] at hlast
      simp at hlast
  · rw [if_neg hz] at hlink
    cases hl : c.blocks.getLast? with
    | none =>
        rw [hl] at hlink
        exact absurd hlink (by simp)
    | some lastb =>
        rw [hl] at hlink
        dsimp only at hlink
        by_cases h1 : block.header.height ≠ lastb.header.height + 1
        · rw [if_pos h1] at hlink
          exact absurd hlink (by simp)
        · rw [if_neg h1] at hlink
          by_cases h2 : block.header.previous_hash ≠ lastb.hash H
          · rw [if_pos h2] at hlink
            exact absurd hlink (by simp)
          · push_neg at h1 h2
            refine ⟨fun hempty => ?_, fun last hlast => ?_⟩
            · rw [hempty] at hl; simp at hl
            · have hll := Option.some.inj hlast
              rw [← hll]
              exact ⟨h1, h2⟩

/-- Witness for C6: the concrete height-0 block `c6Gen` applied to the empty
chain discharges the hypothesis; the empty-chain clause is exercised. -/
theorem C6_amended_witness :
    chain0.apply_block demoHash acceptSig c6Gen = .ok c6wChain ∧
    ((chain0.blocks = [] → c6Gen.header.height = 0) ∧
      ∀ last, chain0.blocks.getLast? = some last →
        c6Gen.header.height = last.header.height + 1 ∧
        c6Gen.header.previous_hash = last.hash demoHash) :=
  ⟨by decide, C6_amended_linkage demoHash acceptSig chain0 c6Gen c6wChain (by decide)⟩

-- ---------------------------------------------------------------------------
-- Big-endian value of byte arrays versus lexicographic comparison
-- ---------------------------------------------------------------------------

theorem beVal_foldl (l : List Nat) : ∀ acc : Nat,
    l.foldl (fun a b => a * 256 + b) acc = acc * 256 ^ l.length + beVal l := by
  induction l with
  | nil => intro acc; simp [beVal]
  | cons x r ih =>
      intro acc
      have h1 : (x :: r).foldl (fun a b => a * 256 + b) acc
          = r.foldl (fun a b => a * 256 + b) (acc * 256 + x) := rfl
      have h2 : beVal (x :: r) = r.foldl (fun a b => a * 256 + b) (0 * 256 + x) := rfl
      rw [h1, h2, ih (acc * 256 + x), ih (0 * 256 + x), List.length_cons]
      ring

theorem beVal_cons (x : Nat) (r : List Nat) :
    beVal (x :: r) = x * 256 ^ r.length + beVal r := by
  have h : beVal (x :: r) = r.foldl (fun a b => a * 256 + b) (0 * 256 + x) := rfl
  rw [h, beVal_foldl]
  ring

theorem beVal_lt (l : List Nat) (hb : ∀ x ∈ l, x < 256) : beVal l < 256 ^ l.length := by
  induction l with
  | nil => simp [beVal]
  | cons x r ih =>
      have hx : x + 1 ≤ 256 := hb x (List.mem_cons_self _ _)
      have hr := ih (fun y hy => hb y (List.mem_cons_of_mem _ hy))
      calc beVal (x :: r) = x * 256 ^ r.length + beVal r := beVal_cons x r
        _ < x * 256 ^ r.length + 256 ^ r.length := Nat.add_lt_add_left hr _
        _ = (x + 1) * 256 ^ r.length := by ring
        _ ≤ 256 * 256 ^ r.length := Nat.mul_le_mul_right _ hx
        _ = 256 ^ (x :: r).length := by rw [List.length_cons]; ring

theorem bytesLe_beVal : ∀ (a b : List Nat), a.length = b.length →
    (∀ x ∈ a, x < 256) → (∀ x ∈ b, x < 256) →
    bytesLe a b = true → beVal a ≤ beVal b := by
  intro a
  induction a with
  | nil =>
      intro b hlen _ _ _
      cases b with
      | nil => exact le_refl _
      | cons y ys => simp at hlen
  | cons x xs ih =>
      intro b hlen hxa hyb hle
      cases b with
      | nil => simp at hlen
      | cons y ys =>
          have hlen' : xs.length = ys.length := by simpa using hlen
          unfold bytesLe at hle
          by_cases hxy : x < y
          · have hxslt := beVal_lt xs (fun z hz => hxa z (List.mem_cons_of_mem _ hz))
            refine le_of_lt ?_
            calc beVal (x :: xs) = x * 256 ^ xs.length + beVal xs := beVal_cons x xs
              _ < x * 256 ^ xs.length + 256 ^ xs.length := Nat.add_lt_add_left hxslt _
              _ = (x + 1) * 256 ^ xs.length := by ring
              _ ≤ y * 256 ^ xs.length := Nat.mul_le_mul_right _ hxy
              _ = y * 256 ^ ys.length := by rw [hlen']
              _ ≤ y * 256 ^ ys.length + beVal ys := Nat.le_add_right _ _
              _ = beVal (y :: ys) := (beVal_cons y ys).symm
          · by_cases hyx : y < x
            · rw [if_neg hxy, if_pos hyx] at hle
              exact absurd hle (by simp)
            · have hxeq : x = y := le_antisymm (Nat.not_lt.mp hyx) (Nat.not_lt.mp hxy)
              rw [if_neg hxy, if_neg hyx] at hle
              have hrec := ih ys hlen' (fun z hz => hxa z (List.mem_cons_of_mem _ hz))
                (fun z hz => hyb z (List.mem_cons_of_mem _ hz)) hle
              rw [beVal_cons, beVal_cons, hxeq, hlen']
              exact Nat.add_le_add_left hrec _

/-- C8: every block accepted by `apply_block` has a header hash that, read
as a 32-byte big-endian integer, is at most `target(header.difficulty)`;
the code's lexicographic `[u8; 32]` comparison coincides with the
big-endian numeric comparison on equal-length, in-range byte arrays. -/
theorem C8_pow_bound (H : HashFn) (V : EcdsaVerify) (c : Blockchain) (block : Block)
    (c' : Blockchain) (h : c.apply_block H V block = .ok c') :
    beVal (block.hash H).val ≤ beVal (Block.hash_to_target block.header.difficulty).val := by
  have hpow := (apply_block_ok_elim h).2.1
  unfold Blockchain.verify_pow Block.hash_as_u256 at hpow
  obtain ⟨hla, hba⟩ := (block.hash H).property
  obtain ⟨hlb, hbb⟩ := (Block.hash_to_target block.header.difficulty).property
  refine bytesLe_beVal _ _ (by rw [hla, hlb]) ?_ ?_ hpow
  · intro x hx
    simpa using List.all_eq_true.mp hba x hx
  · intro x hx
    simpa using List.all_eq_true.mp hbb x hx

/-- Witness for C8: the accepted concrete genesis block of the C1 scenario. -/
theorem C8_pow_bound_witness :
    chain0.apply_block demoHash acceptSig c1Gen = .ok c1ChainAfterGen ∧
    beVal (c1Gen.hash demoHash).val
      ≤ beVal (Block.hash_to_target c1Gen.header.difficulty).val :=
  ⟨by decide, C8_pow_bound demoHash acceptSig chain0 c1Gen c1ChainAfterGen (by decide)⟩

-- ---------------------------------------------------------------------------
-- Coinbase validation of non-initial transactions
-- ---------------------------------------------------------------------------

theorem applyTxs_cons (H : HashFn) (V : EcdsaVerify) (height i : Nat) (tx : Transaction)
    (rest : List Transaction) (st : TriangleState) :
    applyTxs H V height i (tx :: rest) st =
      match tx.validate_size with
      | .error e => .error e
      | .ok _ =>
          match coinbaseGuard H V i tx st with
          | .error e => .error e
          | .ok _ =>
              match st.apply_transaction H tx height with
              | (_, some e) => .error e
              | (st1, none) => applyTxs H V height (i + 1) rest st1 := rfl

theorem applyTxs_coinbase_validated (H : HashFn) (V : EcdsaVerify) (height : Nat) :
    ∀ (txs : List Transaction) (i : Nat) (st st' : TriangleState),
      applyTxs H V height i txs st = .ok st' →
      ∀ j cb, txs[j]? = some (.Coinbase cb) → 1 ≤ i + j → cb.validate = .ok () := by
  intro txs
  induction txs with
  | nil => intro i st st' _ j cb hj _; simp at hj
  | cons tx rest ih =>
      intro i st st' h j cb hj hij
      rw [applyTxs_cons] at h
      cases hsz : tx.validate_size with
      | error e => rw [hsz] at h; exact absurd h (by simp)
      | ok u =>
          rw [hsz] at h
          dsimp only at h
          cases hg : coinbaseGuard H V i tx st with
          | error e => rw [hg] at h; exact absurd h (by simp)
          | ok u2 =>
              rw [hg] at h
              dsimp only at h
              cases happ : st.apply_transaction H tx height with
              | mk st1 err =>
                  rw [happ] at h
                  cases err with
                  | some e => dsimp only at h; exact absurd h (by simp)
                  | none =>
                      dsimp only at h
                      cases j with
                      | zero =>
                          simp only [List.getElem?_cons_zero, Option.some.injEq] at hj
                          have hi : ¬ i = 0 := by omega
                          unfold coinbaseGuard at hg
                          rw [if_neg hi, hj] at hg
                          simpa [Transaction.validate] using hg
                      | succ j' =>
                          have hj' : rest[j']? = some (.Coinbase cb) := by simpa using hj
                          exact ih (i + 1) st1 st' h j' cb hj' (by omega)

/-- C4 (amended): in every accepted block, every Coinbase at index ≥ 1
satisfies the reward bounds and has a non-zero beneficiary (the index-0
coinbase is exempt; see the counterexample for the genesis block). -/
theorem C4_amended_noninitial_coinbases_validated (H : HashFn) (V : EcdsaVerify)
    (c : Blockchain) (block : Block) (c' : Blockchain)
    (h : c.apply_block H V block = .ok c')
    (j : Nat) (cb : CoinbaseTx)
    (hj : block.transactions[j]? = some (.Coinbase cb)) (hj1 : 1 ≤ j) :
    (0 : Int) < cb.reward_area ∧ cb.reward_area ≤ CoinbaseTx.MAX_REWARD_AREA ∧
      cb.beneficiary_address ≠ zeroAddress := by
  obtain ⟨-, -, -, st, happ, -, -, -, -⟩ := apply_block_ok_elim h
  have hv := applyTxs_coinbase_validated H V block.header.height block.transactions 0
    c.state st happ j cb hj (by omega)
  unfold CoinbaseTx.validate at hv
  by_cases h1 : cb.reward_area ≤ (0 : Int)
  · rw [if_pos h1] at hv; exact absurd hv (by simp)
  · rw [if_neg h1] at hv
    by_cases h2 : CoinbaseTx.MAX_REWARD_AREA < cb.reward_area
    · rw [if_pos h2] at hv; exact absurd hv (by simp)
    · rw [if_neg h2] at hv
      by_cases h3 : cb.beneficiary_address = zeroAddress
      · rw [if_pos h3] at hv; exact absurd hv (by simp)
      · exact ⟨lt_of_not_le h1, not_lt.mp h2, h3⟩

/-- Witness for C4's amended claim: the accepted two-coinbase block whose
index-1 coinbase (reward 7, beneficiary `addr1`) is bounds-checked. -/
theorem C4_amended_witness :
    c1ChainAfterGen.apply_block demoHash acceptSig c4wBlock = .ok c4wChain ∧
    c4wBlock.transactions[1]? = some (.Coinbase ⟨Coord.ofInt 7, addr1, 3⟩) ∧
    ((0 : Int) < Coord.ofInt 7 ∧ Coord.ofInt 7 ≤ CoinbaseTx.MAX_REWARD_AREA ∧
      addr1 ≠ zeroAddress) :=
  ⟨by decide, by decide,
    C4_amended_noninitial_coinbases_validated demoHash acceptSig c1ChainAfterGen c4wBlock
      c4wChain (by decide) 1 ⟨Coord.ofInt 7, addr1, 3⟩ (by decide) (by decide)⟩

-- ---------------------------------------------------------------------------
-- The in-block double-spend scan
-- ---------------------------------------------------------------------------

theorem noDoubleSpendGo_sound (H : HashFn) :
    ∀ (txs : List Transaction) (seen : List (Sha256Hash × Sha256Hash)),
      noDoubleSpendGo H txs seen = .ok () →
      (txs.filterMap Transaction.consumedKey).Nodup ∧
        ∀ k ∈ txs.filterMap Transaction.consumedKey, mget seen k = none := by
  intro txs
  induction txs with
  | nil => intro seen _; simp
  | cons tx rest ih =>
      intro seen h
      unfold noDoubleSpendGo at h
      cases hck : tx.consumedKey with
      | none =>
          rw [hck] at h
          dsimp only at h
          have hr := ih seen h
          simpa [List.filterMap_cons, hck] using hr
      | some k =>
          rw [hck] at h
          dsimp only at h
          cases hseen : mget seen k with
          | some v => rw [hseen] at h; exact absurd h (by simp)
          | none =>
              rw [hseen] at h
              dsimp only at h
              obtain ⟨hnd, hnone⟩ := ih (minsert seen k (tx.hash H)) h
              have hknotin : k ∉ rest.filterMap Transaction.consumedKey := by
                intro hkin
                have hk := hnone k hkin
                rw [mget_minsert] at hk
                simp at hk
              constructor
              · rw [List.filterMap_cons, hck]
                exact List.Nodup.cons hknotin hnd
              · intro k2 hk2
                rw [List.filterMap_cons, hck] at hk2
                rcases List.mem_cons.mp hk2 with rfl | hk2r
                · exact hseen
                · have hk := hnone k2 hk2r
                  rw [mget_minsert] at hk
                  by_cases hkk : k2 = k
                  · rw [if_pos hkk] at hk; simp at hk
                  · rw [if_neg hkk] at hk; exact hk

theorem noDoubleSpendGo_cases (H : HashFn) :
    ∀ (txs : List Transaction) (seen : List (Sha256Hash × Sha256Hash)),
      noDoubleSpendGo H txs seen = .ok () ∨
        noDoubleSpendGo H txs seen
          = .error (.InvalidTransaction "Double spend detected in block") := by
  intro txs
  induction txs with
  | nil => intro seen; left; rfl
  | cons tx rest ih =>
      intro seen
      unfold noDoubleSpendGo
      cases hck : tx.consumedKey with
      | none => dsimp only; exact ih seen
      | some k =>
          dsimp only
          cases hseen : mget seen k with
          | some v => dsimp only; right; rfl
          | none => dsimp only; exact ih (minsert seen k (tx.hash H))

/-- C5 (amended): a block with two transactions consuming the same UTXO key
is always rejected; when the linkage and proof-of-work checks pass, the
error is `InvalidTransaction` with the double-spend message, not the unused
`DoubleSpendDetected` variant. -/
theorem C5_amended_double_spend_rejected_as_invalid_transaction
    (H : HashFn) (V : EcdsaVerify) (c : Blockchain) (block : Block)
    (hdup : ¬ (block.transactions.filterMap Transaction.consumedKey).Nodup) :
    exceptOk (c.apply_block H V block) = false ∧
    (linkageCheck H c block = .ok () → c.verify_pow H block = true →
      c.apply_block H V block
        = .error (.InvalidTransaction "Double spend detected in block")) := by
  have hvnds : validate_no_double_spend H block
      = .error (.InvalidTransaction "Double spend detected in block") := by
    rcases noDoubleSpendGo_cases H block.transactions [] with hok | herr
    · exact absurd (noDoubleSpendGo_sound H block.transactions [] hok).1 hdup
    · exact herr
  constructor
  · unfold Blockchain.apply_block
    cases hlink : linkageCheck H c block with
    | error e => simp [exceptOk]
    | ok u =>
        dsimp only
        by_cases hpow : c.verify_pow H block = true
        · rw [if_neg (by simp [hpow]), hvnds]
          simp [exceptOk]
        · rw [if_pos (by simp [hpow])]
          simp [exceptOk]
  · intro hlink hpow
    unfold Blockchain.apply_block
    rw [hlink]
    dsimp only
    rw [if_neg (by simp [hpow]), hvnds]

/-- Witness for C5's amended claim: the concrete conflicting-transfers block. -/
theorem C5_amended_witness :
    (¬ (c5Block.transactions.filterMap Transaction.consumedKey).Nodup) ∧
    (exceptOk (chain0.apply_block demoHash acceptSig c5Block) = false ∧
      (linkageCheck demoHash chain0 c5Block = .ok () →
        chain0.verify_pow demoHash c5Block = true →
        chain0.apply_block demoHash acceptSig c5Block
          = .error (.InvalidTransaction "Double spend detected in block"))) :=
  ⟨by decide,
    C5_amended_double_spend_rejected_as_invalid_transaction demoHash acceptSig chain0
      c5Block (by decide)⟩

-- ---------------------------------------------------------------------------
-- Persistence round-trip
-- ---------------------------------------------------------------------------

theorem mem_retainOtherHeights {b2 : Block} {h : Nat} (hh : b2.header.height ≠ h) :
    ∀ l : List Block, b2 ∈ l → b2 ∈ retainOtherHeights l h := by
  intro l
  induction l with
  | nil => intro hb; simp at hb
  | cons x r ih =>
      intro hb
      unfold retainOtherHeights
      rcases List.mem_cons.mp hb with rfl | hbr
      · rw [if_neg hh]
        exact List.mem_cons_self _ _
      · by_cases hx : x.header.height = h
        · rw [if_pos hx]; exact ih hbr
        · rw [if_neg hx]; exact List.mem_cons_of_mem _ (ih hbr)

/-- C10 (amended): after a successful save on the in-memory backend, loading
yields a chain that contains the saved block and every previously stored
block at a different height (same-height blocks are replaced), whose state
is the saved state, and whose difficulty is the saved value modulo 2^32. -/
theorem C10_amended_load_after_save (H : HashFn) (V : EcdsaVerify)
    (p : InMemoryPersistence) (b : Block) (s : TriangleState) (d : Nat) (l : Blockchain)
    (h : (p.save_blockchain_state b s d).load_blockchain H V = .ok l) :
    b ∈ l.blocks ∧
    (∀ b2 ∈ p.blocks, b2.header.height ≠ b.header.height → b2 ∈ l.blocks) ∧
    l.state = s ∧ l.difficulty = d % 2 ^ 32 := by
  unfold InMemoryPersistence.load_blockchain at h
  have hne : (p.save_blockchain_state b s d).blocks ≠ [] := by
    unfold InMemoryPersistence.save_blockchain_state
    simp
  rw [if_neg hne] at h
  have hl := (Except.ok.inj h).symm
  refine ⟨?_, ?_, ?_, ?_⟩ <;> rw [hl]
  · show b ∈ (p.save_blockchain_state b s d).blocks
    unfold InMemoryPersistence.save_blockchain_state
    simp
  · intro b2 hb2 hhne
    show b2 ∈ (p.save_blockchain_state b s d).blocks
    unfold InMemoryPersistence.save_blockchain_state
    exact List.mem_append.mpr (Or.inl (mem_retainOtherHeights hhne p.blocks hb2))
  · rfl
  · rfl

/-- Witness for C10's amended claim: one save onto the fresh store. -/
theorem C10_amended_witness :
    (InMemoryPersistence.new.save_blockchain_state c10BlockA TriangleState.new
        5).load_blockchain demoHash acceptSig = .ok c10wLoaded ∧
    (c10BlockA ∈ c10wLoaded.blocks ∧
      (∀ b2 ∈ InMemoryPersistence.new.blocks,
        b2.header.height ≠ c10BlockA.header.height → b2 ∈ c10wLoaded.blocks) ∧
      c10wLoaded.state = TriangleState.new ∧ c10wLoaded.difficulty = 5 % 2 ^ 32) :=
  ⟨by decide,
    C10_amended_load_after_save demoHash acceptSig InMemoryPersistence.new c10BlockA
      TriangleState.new 5 c10wLoaded (by decide)⟩

-- ---------------------------------------------------------------------------
-- Error paths of apply_transaction
-- ---------------------------------------------------------------------------

theorem creditDebitClamp_cancel (bal : List (Address × Coord)) (A : Address) (v : Int)
    (hv : v ≤ (mget bal A).getD 0) (a : Address) :
    (mget (creditBalance (debitClampBalance bal A v) A v) a).getD 0
      = (mget bal a).getD 0 := by
  unfold creditBalance debitClampBalance
  by_cases ha : a = A
  · subst ha
    rw [mget_minsert, if_pos rfl, mget_minsert, if_pos rfl]
    have hnn : ¬ ((mget bal a).getD 0 - v < 0) := by intro hlt; linarith
    rw [if_neg hnn]
    simp only [Option.getD_some]
    ring
  · rw [mget_minsert, if_neg ha, mget_minsert, if_neg ha]

/-- C3 (amended): a failing `apply_transaction` leaves every UTXO lookup
unchanged; balance lookups (absent entries reading as zero) are unchanged
provided the failure path does not clamp, i.e. provided that for a
Subdivision whose parent exists the owner's indexed balance is at least the
parent's effective value (always the case when the index is consistent;
see the counterexample for a drifted index). -/
theorem C3_amended_error_leaves_state_unchanged (H : HashFn) (tx : Transaction)
    (height : Nat) (s : TriangleState)
    (herr : (s.apply_transaction H tx height).2.isSome = true)
    (hnc : subdivisionNoClamp s tx = true) :
    (∀ k, mget (s.apply_transaction H tx height).1.utxo_set k = mget s.utxo_set k) ∧
    (∀ a, (s.apply_transaction H tx height).1.get_balance a = s.get_balance a) := by
  cases tx with
  | Coinbase cb =>
      unfold TriangleState.apply_transaction at herr
      simp at herr
  | Transfer t =>
      unfold TriangleState.apply_transaction at herr ⊢
      dsimp only at herr ⊢
      cases hin : mget s.utxo_set t.input_hash with
      | none =>
          exact ⟨fun k => rfl, fun a => rfl⟩
      | some consumed =>
          rw [hin] at herr
          dsimp only at herr ⊢
          by_cases how : consumed.owner ≠ t.sender
          · rw [if_pos how] at herr ⊢
            exact ⟨fun k => mget_restore hin k, fun a => rfl⟩
          · rw [if_neg how] at herr
            exfalso
            split at herr <;> simp at herr
  | Subdivision dt =>
      unfold TriangleState.apply_transaction at herr ⊢
      dsimp only at herr ⊢
      cases hin : mget s.utxo_set dt.parent_hash with
      | none =>
          exact ⟨fun k => rfl, fun a => rfl⟩
      | some consumed =>
          rw [hin] at herr
          dsimp only at herr ⊢
          by_cases how : consumed.owner ≠ dt.owner_address
          · rw [if_pos how] at herr ⊢
            exact ⟨fun k => mget_restore hin k, fun a => rfl⟩
          · rw [if_neg how] at herr ⊢
            have hble : consumed.effective_value ≤ s.get_balance dt.owner_address := by
              unfold subdivisionNoClamp at hnc
              dsimp only at hnc
              rw [hin] at hnc
              dsimp only at hnc
              exact of_decide_eq_true hnc
            split at herr
            · next hvm =>
                rw [if_pos hvm]
                refine ⟨fun k => mget_restore hin k, fun a => ?_⟩
                exact creditDebitClamp_cancel s.address_balances dt.owner_address
                  consumed.effective_value hble a
            · next hvm => simp at herr

/-- Witness for C3's amended claim: a failing subdivision on a state whose
index (15) covers the parent value (10), leaving the state unchanged. -/
theorem C3_amended_witness :
    ((c3wState.apply_transaction demoHash c3wSub 1).2.isSome = true ∧
      subdivisionNoClamp c3wState c3wSub = true) ∧
    ((∀ k, mget (c3wState.apply_transaction demoHash c3wSub 1).1.utxo_set k
        = mget c3wState.utxo_set k) ∧
      (∀ a, (c3wState.apply_transaction demoHash c3wSub 1).1.get_balance a
        = c3wState.get_balance a)) :=
  ⟨⟨by decide, by decide⟩,
    C3_amended_error_leaves_state_unchanged demoHash c3wSub 1 c3wState (by decide) (by decide)⟩

-- ---------------------------------------------------------------------------
-- Difficulty retargeting
-- ---------------------------------------------------------------------------

